import Mathlib

/-!
Shallow embedding of `scripts/generate_essentials_catalog.py` (the Mira8
catalog generator) and proofs about the claims of its specification.

Conventions of the embedding:
* Python strings are Lean `String`s; most work happens on `List Char`
  (`String.data`) so that every definition is structurally recursive and
  kernel-computable.
* Python `float` values are modelled as exact rationals (`Rat`).  The model
  of `float(...)` covers the decimal-literal grammar (optional sign,
  digits, optional fractional part, optional exponent, surrounding
  whitespace); the exotic inputs Python additionally accepts
  (`inf`, `nan`, digit underscores) are outside the model.
* Python `str.strip` / `str.split()` whitespace is modelled by the ASCII
  whitespace characters Python recognises; `str.lower` is modelled
  ASCII-only (the catalog's delimiters, tags and the inputs of interest
  are ASCII).
* A missing CSV column and an empty one are identified: the script reads
  every field with `row.get(key, '')` (or treats `None` and `''` alike),
  so `RawRecord` stores plain strings with `""` for "absent".
-/

attribute [local semireducible] Rat.add Rat.mul Rat.inv Rat.sub

/-- Whitespace characters recognised by Python's `str.strip`/`str.split`
(ASCII range). -/
def isPyWs (c : Char) : Bool :=
  c = ' ' || c = '\t' || c = '\n' || c = '\r' || c = '\x0b' || c = '\x0c'

/-- Model of Python `str.strip` on a character list. -/
def pyStripChars (cs : List Char) : List Char :=
  ((cs.dropWhile isPyWs).reverse.dropWhile isPyWs).reverse

/-- Model of Python `str.strip`. -/
def pyStrip (s : String) : String :=
  String.mk (pyStripChars s.data)

/-- Model of Python `str.lower` (ASCII letters). -/
def pyLower (s : String) : String :=
  String.mk (s.data.map Char.toLower)

/-- Accumulator-based worker for Python's no-argument `str.split`:
splits on maximal runs of whitespace, never produces empty tokens. -/
def splitWsAux : List Char → List Char → List (List Char)
  | [], acc => if acc.isEmpty then [] else [acc.reverse]
  | c :: cs, acc =>
    if isPyWs c then
      if acc.isEmpty then splitWsAux cs [] else acc.reverse :: splitWsAux cs []
    else
      splitWsAux cs (c :: acc)

/-- Model of Python `str.split()` (no separator argument). -/
def pySplitWsChars (cs : List Char) : List (List Char) :=
  splitWsAux cs []

/-- Numeric value of a digit run. -/
def digitsVal (ds : List Char) : Nat :=
  ds.foldl (fun a c => a * 10 + (c.toNat - 48)) 0

/-- `10 ^ n` as a rational, computed on naturals. -/
def pow10 (n : Nat) : Rat :=
  ((10 ^ n : Nat) : Rat)

/-- Mantissa of a Python float literal: `digits [. digits]` or `. digits`,
returning its value and the unconsumed rest. -/
def parseMantissa (cs : List Char) : Option (Rat × List Char) :=
  let ip := cs.takeWhile Char.isDigit
  let r1 := cs.dropWhile Char.isDigit
  match r1 with
  | '.' :: r2 =>
    let fp := r2.takeWhile Char.isDigit
    let r3 := r2.dropWhile Char.isDigit
    if ip.isEmpty && fp.isEmpty then none
    else some ((digitsVal ip : Rat) + (digitsVal fp : Rat) / pow10 fp.length, r3)
  | _ =>
    if ip.isEmpty then none else some ((digitsVal ip : Rat), r1)

/-- A signed digit run that must consume the whole input
(the exponent of a float literal). -/
def parseSignedExp (cs : List Char) : Option Int :=
  let (sgn, r) :=
    match cs with
    | '+' :: r => ((1 : Int), r)
    | '-' :: r => ((-1 : Int), r)
    | _ => ((1 : Int), cs)
  let ds := r.takeWhile Char.isDigit
  let rest := r.dropWhile Char.isDigit
  if ds.isEmpty || !rest.isEmpty then none else some (sgn * (digitsVal ds : Int))

/-- The optional exponent suffix of a float literal; everything after the
mantissa must be consumed by it. -/
def parseExpSuffix : List Char → Option Int
  | [] => some 0
  | 'e' :: r => parseSignedExp r
  | 'E' :: r => parseSignedExp r
  | _ => none

/-- Scale a mantissa by `10 ^ e` for a signed exponent. -/
def applyExp (m : Rat) (e : Int) : Rat :=
  if 0 ≤ e then m * pow10 e.toNat else m / pow10 (-e).toNat

/-- Core of the Python `float(...)` model, on an already-stripped
character list. -/
def pyFloatCore (cs : List Char) : Option Rat :=
  let (sgn, r0) :=
    match cs with
    | '+' :: r => ((1 : Rat), r)
    | '-' :: r => ((-1 : Rat), r)
    | _ => ((1 : Rat), cs)
  match parseMantissa r0 with
  | none => none
  | some (m, rest) =>
    match parseExpSuffix rest with
    | none => none
    | some e => some (sgn * applyExp m e)

/-- Model of Python `float(s)`: strips surrounding whitespace, then parses
a decimal literal; `none` models `ValueError`. -/
def pyFloat? (s : String) : Option Rat :=
  pyFloatCore (pyStripChars s.data)

/-- Model of Python `int(s)`: strips surrounding whitespace, then parses an
optionally signed digit run; `none` models `ValueError`. -/
def pyInt? (s : String) : Option Int :=
  parseSignedExp (pyStripChars s.data)

/-- Model of Python's substring test `sep in cs`. -/
def containsSeq (sep : List Char) : List Char → Bool
  | [] => sep.isEmpty
  | c :: rest => sep.isPrefixOf (c :: rest) || containsSeq sep rest

/-- Prepend a character to the first group of a split result. -/
def consHead (c : Char) : List (List Char) → List (List Char)
  | [] => [[c]]
  | g :: gs => (c :: g) :: gs

/-- Model of Python `s.split(sep)` for a one-character separator. -/
def splitOn1 (a : Char) : List Char → List (List Char)
  | [] => [[]]
  | c :: rest =>
    if c = a then [] :: splitOn1 a rest else consHead c (splitOn1 a rest)

/-- Model of Python `s.split(sep)` for a two-character separator
(leftmost, non-overlapping matches). -/
def splitOn2 (a b : Char) : List Char → List (List Char)
  | [] => [[]]
  | [c] => [[c]]
  | c :: d :: rest =>
    if c = a ∧ d = b then [] :: splitOn2 a b rest
    else consHead c (splitOn2 a b (d :: rest))

/-- Model of Python `s.split(sep)` for a three-character separator
(leftmost, non-overlapping matches). -/
def splitOn3 (a b c : Char) : List Char → List (List Char)
  | x :: y :: z :: rest =>
    if x = a ∧ y = b ∧ z = c then [] :: splitOn3 a b c rest
    else consHead x (splitOn3 a b c (y :: z :: rest))
  | cs => [cs]

/-- `parse_nutrition_value` from the script: empty/blank input gives `0.0`;
otherwise, when the string contains a space, the first
whitespace-separated token is parsed, else the whole string; any parse
failure (including an out-of-tokens index error) gives `0.0`. -/
def parse_nutrition_value (value : String) : Rat :=
  if value = "" ∨ pyStrip value = "" then 0
  else
    let cleaned :=
      if value.data.contains ' ' then
        String.mk ((pySplitWsChars value.data).headD [])
      else value
    (pyFloat? cleaned).getD 0


/-- The fragment cleanup of `parse_ingredients`: the list comprehension
`[i.strip().lower() for i in parts if i.strip()]`. -/
def cleanFragments (parts : List (List Char)) : List String :=
  parts.filterMap fun i =>
    let s := pyStripChars i
    if s = [] then none else some (String.mk (s.map Char.toLower))

/-- The separator loop of `parse_ingredients`: `for sep in [', ', '; ',
' - ']: if sep in text: ... break` — the text is split on the first of
the three separators that occurs in it and the fragments are cleaned;
`[]` when no separator occurs (the loop never assigns). -/
def ingredientSplit (cs : List Char) : List String :=
  if containsSeq [',', ' '] cs then cleanFragments (splitOn2 ',' ' ' cs)
  else if containsSeq [';', ' '] cs then cleanFragments (splitOn2 ';' ' ' cs)
  else if containsSeq [' ', '-', ' '] cs then cleanFragments (splitOn3 ' ' '-' ' ' cs)
  else []

/-- `parse_ingredients` from the script: blank text gives `[]`; otherwise
the text is split by `ingredientSplit`; if that leaves nothing (no
separator occurred, or every fragment was blank) the whole stripped,
lowercased text is used as a one-element list; the result is truncated
to the first 20 entries. -/
def parse_ingredients (ingredients_text : String) : List String :=
  if ingredients_text = "" ∨ pyStrip ingredients_text = "" then []
  else
    (if ingredientSplit ingredients_text.data = [] then [pyLower (pyStrip ingredients_text)]
     else ingredientSplit ingredients_text.data).take 20


/-- One input row; every field the script reads, as the raw string value
(`""` when the column is missing, matching `row.get(key, '')`). -/
structure RawRecord where
  code : String
  product_name : String
  brands : String
  categories_en : String
  serving_size : String
  ingredients_text : String
  energy_kcal_100g : String
  proteins_100g : String
  carbohydrates_100g : String
  fat_100g : String
  saturated_fat_100g : String
  fiber_100g : String
  sugars_100g : String
  sodium_100g : String
  countries_tags : String
  unique_scans_n : String
deriving DecidableEq

/-- The fixed 8-field nutrition record of a catalog item. -/
structure Nutrition where
  calories : Rat
  protein : Rat
  carbohydrates : Rat
  fat : Rat
  saturatedFat : Rat
  fiber : Rat
  sugar : Rat
  sodium : Rat
deriving DecidableEq

/-- One normalized product of the output catalog. -/
structure CatalogItem where
  barcode : String
  name : String
  brand : Option String
  category : String
  nutrition : Nutrition
  servingSize : Option String
  ingredients : Option (List String)
deriving DecidableEq

/-- The nutrition dict built by `process_product` (sodium is divided by
1000, the script's mg→g conversion). -/
def rowNutrition (row : RawRecord) : Nutrition where
  calories := parse_nutrition_value row.energy_kcal_100g
  protein := parse_nutrition_value row.proteins_100g
  carbohydrates := parse_nutrition_value row.carbohydrates_100g
  fat := parse_nutrition_value row.fat_100g
  saturatedFat := parse_nutrition_value row.saturated_fat_100g
  fiber := parse_nutrition_value row.fiber_100g
  sugar := parse_nutrition_value row.sugars_100g
  sodium := parse_nutrition_value row.sodium_100g / 1000

/-- `row.get('code', '').strip()`. -/
def rowBarcode (row : RawRecord) : String := pyStrip row.code

/-- `row.get('product_name', '').strip()`. -/
def rowName (row : RawRecord) : String := pyStrip row.product_name

/-- `row.get('brands', '').strip() or None`. -/
def rowBrand (row : RawRecord) : Option String :=
  if pyStrip row.brands = "" then none else some (pyStrip row.brands)

/-- `row.get('categories_en', '').split(',')[0].strip() if
row.get('categories_en') else 'other'`, before the final `.lower()`. -/
def rowCategory (row : RawRecord) : String :=
  if row.categories_en = "" then "other"
  else pyStrip (String.mk ((splitOn1 ',' row.categories_en.data).headD []))

/-- `row.get('serving_size', '').strip() or None`. -/
def rowServing (row : RawRecord) : Option String :=
  if pyStrip row.serving_size = "" then none else some (pyStrip row.serving_size)

/-- The dict returned on the success path of `process_product`. -/
def rowItem (row : RawRecord) : CatalogItem where
  barcode := rowBarcode row
  name := rowName row
  brand := rowBrand row
  category := pyLower (rowCategory row)
  nutrition := rowNutrition row
  servingSize := rowServing row
  ingredients :=
    if parse_ingredients row.ingredients_text = [] then none
    else some (parse_ingredients row.ingredients_text)

/-- `process_product` from the script: `none` models the `return None`
rejection paths (barcode missing/short, name missing, all of {calories,
protein, carbohydrates} zero), otherwise the normalized item. -/
def process_product (row : RawRecord) : Option CatalogItem :=
  if rowBarcode row = "" ∨ rowName row = "" ∨ (rowBarcode row).length < 8 then none
  else if (rowNutrition row).calories = 0 ∧ (rowNutrition row).protein = 0 ∧
      (rowNutrition row).carbohydrates = 0 then none
  else some (rowItem row)

/-- The country filter of `main`'s loop: keep the row when the lowercased
countries field contains `"united-states"` or `"en:united-states"`. -/
def countriesOk (row : RawRecord) : Bool :=
  containsSeq "united-states".data (pyLower row.countries_tags).data ||
    containsSeq "en:united-states".data (pyLower row.countries_tags).data

/-- The scan count of a row: `int(row.get('unique_scans_n', '0') or '0')`
with `ValueError` degrading to 0. -/
def rowScore (row : RawRecord) : Int :=
  (pyInt? (if row.unique_scans_n = "" then "0" else row.unique_scans_n)).getD 0

/-- The accumulation loop of `main`: country-filtered rows that normalize
successfully are kept as (scan count, item) pairs, in input order. -/
def collectPairs : List RawRecord → List (Int × CatalogItem)
  | [] => []
  | row :: rest =>
    if countriesOk row then
      match process_product row with
      | some item => (rowScore row, item) :: collectPairs rest
      | none => collectPairs rest
    else collectPairs rest

/-- Insertion step of a stable descending-by-score sort: the new element
goes in front of the first strictly smaller score, after all earlier
elements with an equal or larger score. -/
def insertScoreDesc {α : Type} (x : Int × α) : List (Int × α) → List (Int × α)
  | [] => [x]
  | y :: ys => if y.1 ≤ x.1 then x :: y :: ys else y :: insertScoreDesc x ys

/-- `products.sort(key=lambda x: x[0], reverse=True)`: Python's list sort
is a stable sort; with `reverse=True` it is the stable descending sort by
the key, which this insertion sort implements. -/
def sortScoreDesc {α : Type} : List (Int × α) → List (Int × α)
  | [] => []
  | x :: xs => insertScoreDesc x (sortScoreDesc xs)

/-- `products[:args.limit]` after the sort. -/
def rankedPairs {α : Type} (pairs : List (Int × α)) (limit : Nat) : List (Int × α) :=
  (sortScoreDesc pairs).take limit

/-- `top_products = [p[1] for p in products[:args.limit]]`. -/
def topProducts {α : Type} (pairs : List (Int × α)) (limit : Nat) : List α :=
  (rankedPairs pairs limit).map Prod.snd

/-- The catalog products produced by the whole pipeline for a list of
input rows. -/
def pipelineProducts (rows : List RawRecord) (limit : Nat) : List CatalogItem :=
  topProducts (collectPairs rows) limit

/-- The top-level output artifact. -/
structure Catalog where
  version : String
  generatedAt : String
  productCount : Nat
  products : List CatalogItem
deriving DecidableEq

/-- The catalog dict built by `main` (`generatedAt` is the wall-clock
timestamp, passed in as a parameter of the run). -/
def mkCatalog (generatedAt : String) (top_products : List CatalogItem) : Catalog where
  version := "1.0.0"
  generatedAt := generatedAt
  productCount := top_products.length
  products := top_products

/-- A run of the script on `rows` at a given instant. -/
def runCatalog (rows : List RawRecord) (limit : Nat) (now : String) : Catalog :=
  mkCatalog now (pipelineProducts rows limit)

/-- The JSON documents the script can write. -/
inductive Json where
  | str : String → Json
  | num : Rat → Json
  | nul : Json
  | arr : List Json → Json
  | obj : List (String × Json) → Json

/-- Field access on a parsed JSON object. -/
def Json.getField : Json → String → Option Json
  | Json.obj fields, k => fields.lookup k
  | _, _ => none

/-- `json.dump` of an optional string (`None` becomes JSON null). -/
def optStrToJson : Option String → Json
  | none => Json.nul
  | some s => Json.str s

/-- `json.dump` of the nutrition record. -/
def Nutrition.toJson (n : Nutrition) : Json :=
  Json.obj [("calories", Json.num n.calories), ("protein", Json.num n.protein),
    ("carbohydrates", Json.num n.carbohydrates), ("fat", Json.num n.fat),
    ("saturatedFat", Json.num n.saturatedFat), ("fiber", Json.num n.fiber),
    ("sugar", Json.num n.sugar), ("sodium", Json.num n.sodium)]

/-- `json.dump` of one catalog item. -/
def CatalogItem.toJson (i : CatalogItem) : Json :=
  Json.obj [("barcode", Json.str i.barcode), ("name", Json.str i.name),
    ("brand", optStrToJson i.brand), ("category", Json.str i.category),
    ("nutrition", i.nutrition.toJson), ("servingSize", optStrToJson i.servingSize),
    ("ingredients", match i.ingredients with
      | none => Json.nul
      | some l => Json.arr (l.map Json.str))]

/-- `json.dump(catalog, ...)`: the document written to the output file. -/
def Catalog.toJson (c : Catalog) : Json :=
  Json.obj [("version", Json.str c.version), ("generatedAt", Json.str c.generatedAt),
    ("productCount", Json.num (c.productCount : Rat)),
    ("products", Json.arr (c.products.map CatalogItem.toJson))]

/-! ### Definitions written from the specification's words (for refutation
and for amended claims) -/

/-- Modelled from claim C4's words: for every input the parser splits the
string on whitespace, takes the first token and parses it as a number,
returning 0.0 on any parse failure. -/
def numericClaimedC4 (value : String) : Rat :=
  (pyFloat? (String.mk ((pySplitWsChars value.data).headD []))).getD 0

/-- Modelled from the amended claim C4: the first whitespace-separated
token is parsed only when the string contains a space character;
otherwise the whole string is parsed as a number (which itself tolerates
surrounding whitespace); any parse failure yields 0.0. -/
def numericAmendedSpec (value : String) : Rat :=
  if value.data.contains ' ' then
    (pyFloat? (String.mk ((pySplitWsChars value.data).headD []))).getD 0
  else (pyFloat? value).getD 0

/-- Modelled from claim C6's words: split on the first delimiter (in the
priority order comma-space, semicolon-space, hyphen-with-spaces) that
occurs anywhere in the text; trim and lowercase every fragment, drop the
empty ones and truncate to the first 20; if none of the three delimiters
occurs, the whole trimmed, lowercased text is a single-element list. -/
def ingredientsClaimedC6 (t : String) : List String :=
  if containsSeq [',', ' '] t.data then (cleanFragments (splitOn2 ',' ' ' t.data)).take 20
  else if containsSeq [';', ' '] t.data then (cleanFragments (splitOn2 ';' ' ' t.data)).take 20
  else if containsSeq [' ', '-', ' '] t.data then
    (cleanFragments (splitOn3 ' ' '-' ' ' t.data)).take 20
  else [pyLower (pyStrip t)]

/-- Modelled from the amended claim C6: as claimed, except that empty or
whitespace-only text yields the empty list, and whenever the cleaned
split is empty — no delimiter occurred, or every fragment trimmed to
empty — the parser falls back to the single-element list holding the
whole trimmed, lowercased text. -/
def ingredientsAmendedSpec (t : String) : List String :=
  if pyStrip t = "" then []
  else
    (if ingredientSplit t.data = [] then [pyLower (pyStrip t)]
     else ingredientSplit t.data).take 20

/-! ### Concrete records used by the witnesses and counterexamples -/

/-- A fully valid US row: accepted by the filter and the normalizer. -/
def baseRow : RawRecord where
  code := "01234567"
  product_name := "Sample"
  brands := ""
  categories_en := ""
  serving_size := ""
  ingredients_text := ""
  energy_kcal_100g := "100"
  proteins_100g := ""
  carbohydrates_100g := ""
  fat_100g := ""
  saturated_fat_100g := ""
  fiber_100g := ""
  sugars_100g := ""
  sodium_100g := ""
  countries_tags := "en:united-states"
  unique_scans_n := "5"

/-- All three core nutrients zero but fat nonzero. -/
def zeroCoreRow : RawRecord :=
  { baseRow with energy_kcal_100g := "0", fat_100g := "7" }

/-- Calories and protein zero but carbohydrates nonzero. -/
def carbOnlyRow : RawRecord :=
  { baseRow with energy_kcal_100g := "0", carbohydrates_100g := "5" }

/-- A parsable negative calorie value. -/
def negCaloriesRow : RawRecord :=
  { baseRow with energy_kcal_100g := "-5" }

/-- A valid record for a different country. -/
def franceRow : RawRecord :=
  { baseRow with countries_tags := "en:france" }

/-- A record with a multi-entry categories field. -/
def categoriesRow : RawRecord :=
  { baseRow with categories_en := "Snacks, Chips" }

/-- A record with a sodium value of 200 (milligrams per the script's
comment). -/
def sodiumRow : RawRecord :=
  { baseRow with sodium_100g := "200" }

/-- A distinguishable catalog item, used to exercise the ranker. -/
def namedItem (nm : String) : CatalogItem where
  barcode := "00000000"
  name := nm
  brand := none
  category := "other"
  nutrition := ⟨0, 0, 0, 0, 0, 0, 0, 0⟩
  servingSize := none
  ingredients := none

/-! ### Sanity checks on concrete inputs -/

example : parse_nutrition_value "10 g" = 10 := by decide
example : parse_nutrition_value "" = 0 := by decide
example : parse_nutrition_value "  " = 0 := by decide
example : parse_nutrition_value "abc" = 0 := by decide
example : parse_nutrition_value "2.5" = 5/2 := by decide
example : parse_nutrition_value "5\tg" = 0 := by decide
example : parse_nutrition_value "-5" = -5 := by decide
example : parse_nutrition_value "1e2" = 100 := by decide
example : parse_nutrition_value "2e-1" = 1/5 := by decide
example : parse_nutrition_value " 7 " = 7 := by decide
example : pyInt? "42" = some 42 := by decide
example : pyInt? "x" = none := by decide
example : pyFloat? ".5" = some (1/2) := by decide
example : pyFloat? "5." = some 5 := by decide
example : pyFloat? "." = none := by decide

example : parse_ingredients "Water, Sugar, Salt" = ["water", "sugar", "salt"] := by decide
example : parse_ingredients "" = [] := by decide
example : parse_ingredients ", " = [","] := by decide
example : parse_ingredients "a; b" = ["a", "b"] := by decide
example : parse_ingredients "a - b" = ["a", "b"] := by decide

/-! ### Helper lemmas about the Python string model -/

theorem pyStripChars_eq_nil_iff {cs : List Char} :
    pyStripChars cs = [] ↔ ∀ c ∈ cs, isPyWs c = true := by
  unfold pyStripChars
  rw [List.reverse_eq_nil_iff, List.dropWhile_eq_nil_iff]
  constructor
  · intro h c hc
    rw [← List.takeWhile_append_dropWhile (p := isPyWs) (l := cs)] at hc
    rcases List.mem_append.mp hc with h1 | h1
    · exact List.mem_takeWhile_imp h1
    · exact h _ (List.mem_reverse.mpr h1)
  · intro h c hc
    exact h _ ((List.dropWhile_sublist isPyWs).subset (List.mem_reverse.mp hc))

theorem pyStrip_eq_empty_iff {s : String} :
    pyStrip s = "" ↔ ∀ c ∈ s.data, isPyWs c = true := by
  unfold pyStrip
  rw [String.ext_iff]
  exact pyStripChars_eq_nil_iff

theorem splitWsAux_allWs {cs : List Char} (h : ∀ c ∈ cs, isPyWs c = true) :
    ∀ acc, splitWsAux cs acc = if acc.isEmpty then [] else [acc.reverse] := by
  induction cs with
  | nil => intro acc; rfl
  | cons c cs ih =>
    intro acc
    have hc : isPyWs c = true := h c (by simp)
    have ih0 : splitWsAux cs [] = [] := by
      rw [ih (fun x hx => h x (by simp [hx])) []]; rfl
    by_cases ha : acc.isEmpty <;> simp [splitWsAux, hc, ha, ih0]

theorem pySplitWsChars_allWs {cs : List Char} (h : ∀ c ∈ cs, isPyWs c = true) :
    pySplitWsChars cs = [] := by
  unfold pySplitWsChars
  rw [splitWsAux_allWs h []]; rfl

theorem pyFloatq_allWs {s : String} (h : ∀ c ∈ s.data, isPyWs c = true) :
    pyFloat? s = none := by
  unfold pyFloat?
  rw [pyStripChars_eq_nil_iff.mpr h]; rfl

theorem pyFloatq_ne_none_of_some {s : String} {q : Rat} (h : pyFloat? s = some q) :
    ¬ ∀ c ∈ s.data, isPyWs c = true := by
  intro hws
  rw [pyFloatq_allWs hws] at h
  cases h

theorem splitWsAux_append (us : List Char) :
    ∀ (cs acc : List Char), (∀ c ∈ cs, isPyWs c = false) →
      acc.reverse ++ cs ≠ [] →
      splitWsAux (cs ++ ' ' :: us) acc = (acc.reverse ++ cs) :: splitWsAux us [] := by
  intro cs
  induction cs with
  | nil =>
    intro acc _ hne
    have ha : acc.isEmpty = false := by
      cases acc with
      | nil => simp at hne
      | cons a as => rfl
    simp [splitWsAux, ha, isPyWs]
  | cons c cs ih =>
    intro acc h hne
    have hc : isPyWs c = false := h c (by simp)
    have hrec : splitWsAux (cs ++ ' ' :: us) (c :: acc) =
        ((c :: acc).reverse ++ cs) :: splitWsAux us [] := by
      apply ih
      · exact fun x hx => h x (by simp [hx])
      · simp
    simp only [List.cons_append, splitWsAux, hc, Bool.false_eq_true, if_false,
      List.append_eq]
    rw [hrec]
    simp [List.append_assoc]

theorem containsSeq_correct {sep : List Char} :
    ∀ {cs : List Char}, containsSeq sep cs = true ↔ sep <:+: cs := by
  intro cs
  induction cs with
  | nil =>
    simp [containsSeq, List.isEmpty_iff]
  | cons c rest ih =>
    rw [containsSeq, Bool.or_eq_true, ih, List.infix_cons_iff]
    simp [ List.isPrefixOf_iff_prefix]

/-! ### Helper lemmas about the ranker's stable sort -/

theorem insertScoreDesc_perm {α : Type} (x : Int × α) (l : List (Int × α)) :
    List.Perm (insertScoreDesc x l) (x :: l) := by
  induction l with
  | nil => exact List.Perm.refl _
  | cons y ys ih =>
    by_cases h : y.1 ≤ x.1
    · rw [insertScoreDesc, if_pos h]
    · rw [insertScoreDesc, if_neg h]
      exact (ih.cons y).trans (List.Perm.swap x y ys)

theorem sortScoreDesc_perm {α : Type} (l : List (Int × α)) :
    List.Perm (sortScoreDesc l) l := by
  induction l with
  | nil => exact List.Perm.refl _
  | cons x xs ih =>
    rw [sortScoreDesc]
    exact (insertScoreDesc_perm x (sortScoreDesc xs)).trans (ih.cons x)

theorem insertScoreDesc_pairwise {α : Type} {x : Int × α} {l : List (Int × α)}
    (h : l.Pairwise (fun p q => q.1 ≤ p.1)) :
    (insertScoreDesc x l).Pairwise (fun p q => q.1 ≤ p.1) := by
  induction l with
  | nil => simp [insertScoreDesc]
  | cons y ys ih =>
    rcases List.pairwise_cons.mp h with ⟨hy, hys⟩
    by_cases hc : y.1 ≤ x.1
    · rw [insertScoreDesc, if_pos hc]
      refine List.pairwise_cons.mpr ⟨?_, h⟩
      intro z hz
      rcases List.mem_cons.mp hz with rfl | hz
      · exact hc
      · exact le_trans (hy z hz) hc
    · rw [insertScoreDesc, if_neg hc]
      refine List.pairwise_cons.mpr ⟨?_, ih hys⟩
      intro z hz
      rcases List.mem_cons.mp ((insertScoreDesc_perm x ys).mem_iff.mp hz) with rfl | hz
      · exact le_of_lt (not_le.mp hc)
      · exact hy z hz

theorem sortScoreDesc_pairwise {α : Type} (l : List (Int × α)) :
    (sortScoreDesc l).Pairwise (fun p q => q.1 ≤ p.1) := by
  induction l with
  | nil => simp [sortScoreDesc]
  | cons x xs ih =>
    rw [sortScoreDesc]
    exact insertScoreDesc_pairwise ih

theorem filter_insertScoreDesc {α : Type} (s : Int) (x : Int × α) :
    ∀ l : List (Int × α),
      (insertScoreDesc x l).filter (fun p => p.1 == s) =
        if x.1 == s then x :: l.filter (fun p => p.1 == s)
        else l.filter (fun p => p.1 == s) := by
  intro l
  induction l with
  | nil => cases h : (x.1 == s : Bool) <;> simp [insertScoreDesc, List.filter_cons, h]
  | cons y ys ih =>
    by_cases hc : y.1 ≤ x.1
    · rw [insertScoreDesc, if_pos hc, List.filter_cons]
    · rw [insertScoreDesc, if_neg hc, List.filter_cons, ih, List.filter_cons]
      have hxy : x.1 < y.1 := not_le.mp hc
      by_cases h1 : y.1 = s <;> by_cases h2 : x.1 = s
      · exact absurd (h1 ▸ h2) (ne_of_lt hxy)
      · simp [h1, h2]
      · simp [h1, h2]
      · simp [h1, h2]

theorem filter_sortScoreDesc {α : Type} (s : Int) (l : List (Int × α)) :
    (sortScoreDesc l).filter (fun p => p.1 == s) = l.filter (fun p => p.1 == s) := by
  induction l with
  | nil => rfl
  | cons x xs ih =>
    rw [sortScoreDesc, filter_insertScoreDesc, ih, List.filter_cons]

theorem rankedPairs_filter_sublist {α : Type} (pairs : List (Int × α)) (limit : Nat) (s : Int) :
    List.Sublist ((rankedPairs pairs limit).filter (fun p => p.1 == s))
      (pairs.filter (fun p => p.1 == s)) := by
  have h1 : List.Sublist (rankedPairs pairs limit) (sortScoreDesc pairs) :=
    List.take_sublist _ _
  have h2 := h1.filter (fun p => p.1 == s)
  rwa [filter_sortScoreDesc] at h2

/-! ### Helper lemmas about the normalizer and the accumulation loop -/

theorem process_product_eq_none_iff {row : RawRecord} :
    process_product row = none ↔
      (rowBarcode row = "" ∨ rowName row = "" ∨ (rowBarcode row).length < 8) ∨
      ((rowNutrition row).calories = 0 ∧ (rowNutrition row).protein = 0 ∧
        (rowNutrition row).carbohydrates = 0) := by
  unfold process_product
  by_cases h1 : rowBarcode row = "" ∨ rowName row = "" ∨ (rowBarcode row).length < 8
  · simp [h1]
  · by_cases h2 : (rowNutrition row).calories = 0 ∧ (rowNutrition row).protein = 0 ∧
        (rowNutrition row).carbohydrates = 0
    · simp [h1, h2]
    · simp [h1, h2]

theorem process_product_eq_some {row : RawRecord} {item : CatalogItem}
    (h : process_product row = some item) : item = rowItem row := by
  unfold process_product at h
  by_cases h1 : rowBarcode row = "" ∨ rowName row = "" ∨ (rowBarcode row).length < 8
  · simp [h1] at h
  · by_cases h2 : (rowNutrition row).calories = 0 ∧ (rowNutrition row).protein = 0 ∧
        (rowNutrition row).carbohydrates = 0
    · simp [h1, h2] at h
    · simp [h1, h2] at h
      exact h.symm

theorem collectPairs_append (a b : List RawRecord) :
    collectPairs (a ++ b) = collectPairs a ++ collectPairs b := by
  induction a with
  | nil => rfl
  | cons r rs ih =>
    simp only [List.cons_append, collectPairs]
    by_cases h : countriesOk r = true
    · cases hp : process_product r <;> simp [h, hp, ih]
    · simp [Bool.not_eq_true] at h
      simp [h, ih]

theorem collectPairs_skip {row : RawRecord} (h : countriesOk row = false)
    (rest : List RawRecord) : collectPairs (row :: rest) = collectPairs rest := by
  simp [collectPairs, h]

/-! ### Further support lemmas -/

theorem pyLower_eq_empty_iff {s : String} : pyLower s = "" ↔ s = "" := by
  constructor
  · intro h
    apply String.ext
    have h2 := String.data_eq_of_eq h
    simp only [pyLower] at h2
    exact List.map_eq_nil_iff.mp h2
  · intro h
    subst h
    rfl

theorem splitOn1_ne_nil (a : Char) : ∀ cs : List Char, splitOn1 a cs ≠ [] := by
  intro cs
  induction cs with
  | nil => simp [splitOn1]
  | cons c rest ih =>
    by_cases h : c = a
    · simp [splitOn1, h]
    · simp only [splitOn1, if_neg h]
      cases hs : splitOn1 a rest with
      | nil => exact absurd hs ih
      | cons g gs => simp [consHead]

theorem splitOn1_headD (a : Char) : ∀ cs : List Char,
    (splitOn1 a cs).headD [] = cs.takeWhile (fun c => c != a) := by
  intro cs
  induction cs with
  | nil => rfl
  | cons c rest ih =>
    by_cases h : c = a
    · subst h
      simp [splitOn1, List.takeWhile_cons]
    · have hb : (c != a) = true := by simp [h]
      simp only [splitOn1, if_neg h, List.takeWhile_cons, hb, if_true]
      cases hs : splitOn1 a rest with
      | nil => exact absurd hs (splitOn1_ne_nil a rest)
      | cons g gs =>
        rw [hs] at ih
        simp [consHead, ← ih]

theorem mem_cleanFragments_ne_empty {parts : List (List Char)} {x : String}
    (hx : x ∈ cleanFragments parts) : x ≠ "" := by
  unfold cleanFragments at hx
  rcases List.mem_filterMap.mp hx with ⟨i, _, hi⟩
  by_cases h : pyStripChars i = []
  · simp [h] at hi
  · simp only [if_neg h] at hi
    injection hi with hi
    intro hx0
    rw [hx0] at hi
    have h2 := String.data_eq_of_eq hi
    exact h (List.map_eq_nil_iff.mp h2)

theorem mem_ingredientSplit_ne_empty {cs : List Char} {x : String}
    (hx : x ∈ ingredientSplit cs) : x ≠ "" := by
  unfold ingredientSplit at hx
  split at hx
  · exact mem_cleanFragments_ne_empty hx
  · split at hx
    · exact mem_cleanFragments_ne_empty hx
    · split at hx
      · exact mem_cleanFragments_ne_empty hx
      · simp at hx

theorem parse_ingredients_main {t : String} (h : ¬ (t = "" ∨ pyStrip t = "")) :
    parse_ingredients t =
      (if ingredientSplit t.data = [] then [pyLower (pyStrip t)]
       else ingredientSplit t.data).take 20 := by
  unfold parse_ingredients
  rw [if_neg h]

theorem parse_ingredients_length_le (t : String) : (parse_ingredients t).length ≤ 20 := by
  by_cases hg : t = "" ∨ pyStrip t = ""
  · unfold parse_ingredients
    rw [if_pos hg]
    simp
  · rw [parse_ingredients_main hg]
    exact List.length_take_le _ _

theorem parse_ingredients_mem_ne_empty {t : String} {x : String}
    (hx : x ∈ parse_ingredients t) : x ≠ "" := by
  by_cases hg : t = "" ∨ pyStrip t = ""
  · unfold parse_ingredients at hx
    rw [if_pos hg] at hx
    simp at hx
  · have h2 : pyStrip t ≠ "" := fun h => hg (Or.inr h)
    rw [parse_ingredients_main hg] at hx
    have hx' := List.take_subset 20 _ hx
    by_cases hLnil : ingredientSplit t.data = []
    · rw [if_pos hLnil] at hx'
      have hxe : x = pyLower (pyStrip t) := List.mem_singleton.mp hx'
      rw [hxe]
      intro h0
      exact h2 (pyLower_eq_empty_iff.mp h0)
    · rw [if_neg hLnil] at hx'
      exact mem_ingredientSplit_ne_empty hx'

theorem parse_ingredients_eq_nil_iff (t : String) :
    parse_ingredients t = [] ↔ pyStrip t = "" := by
  by_cases hg : t = "" ∨ pyStrip t = ""
  · have hstrip : pyStrip t = "" := by
      rcases hg with h | h
      · subst h; rfl
      · exact h
    unfold parse_ingredients
    rw [if_pos hg]
    simp [hstrip]
  · have h2 : pyStrip t ≠ "" := fun h => hg (Or.inr h)
    rw [parse_ingredients_main hg]
    constructor
    · intro hnil
      exfalso
      rcases List.take_eq_nil_iff.mp hnil with h20 | hif
      · exact absurd h20 (by decide)
      · by_cases hLnil : ingredientSplit t.data = []
        · rw [if_pos hLnil] at hif
          simp at hif
        · rw [if_neg hLnil] at hif
          exact hLnil hif
    · intro h
      exact absurd h h2

theorem parse_nutrition_value_main {v : String} (h : ¬ (v = "" ∨ pyStrip v = "")) :
    parse_nutrition_value v =
      (pyFloat? (if v.data.contains ' ' then String.mk ((pySplitWsChars v.data).headD [])
        else v)).getD 0 := by
  unfold parse_nutrition_value
  rw [if_neg h]

/-! ### The claims -/

/-- Claim C1: for every accumulated list of (score, item) pairs and every
limit, the ranker's output is the input stably sorted by score descending
and truncated to the first `limit` elements — the sorted list is a
permutation of the input, is sorted by non-increasing score, and every
score class keeps exactly its input order (so equal-score retained items
keep their relative input order, stated as a sublist of the input's score
class); with limit 2 and scores [10, 50, 30] the output is the 50-item
followed by the 30-item.  The limit is a count of elements
(non-negative), as produced by the `--limit` option's intended use. -/
theorem ranker_stable_sort_desc :
    (∀ (pairs : List (Int × CatalogItem)) (limit : Nat),
      topProducts pairs limit = ((sortScoreDesc pairs).take limit).map Prod.snd ∧
      (sortScoreDesc pairs).Pairwise (fun p q => q.1 ≤ p.1) ∧
      List.Perm (sortScoreDesc pairs) pairs ∧
      (∀ s : Int, (sortScoreDesc pairs).filter (fun p => p.1 == s) =
        pairs.filter (fun p => p.1 == s)) ∧
      (∀ s : Int, List.Sublist ((rankedPairs pairs limit).filter (fun p => p.1 == s))
        (pairs.filter (fun p => p.1 == s)))) ∧
    topProducts [(10, namedItem "a"), (50, namedItem "b"), (30, namedItem "c")] 2 =
      [namedItem "b", namedItem "c"] := by
  constructor
  · intro pairs limit
    exact ⟨rfl, sortScoreDesc_pairwise pairs, sortScoreDesc_perm pairs,
      fun s => filter_sortScoreDesc s pairs,
      fun s => rankedPairs_filter_sublist pairs limit s⟩
  · decide

/-- Claim C2: a row that passed the filter is rejected by the normalizer
(no item, no exception — the `Option` result) exactly when its stripped
identifier is missing or shorter than 8 characters, its stripped name is
missing, or calories, protein and carbohydrates all parse to zero; in
particular an all-zero-core row with nonzero fat is rejected and a row
with carbohydrates 5 is accepted. -/
theorem normalizer_rejects_iff :
    (∀ row : RawRecord,
      process_product row = none ↔
        ((pyStrip row.code).length < 8 ∨ pyStrip row.product_name = "" ∨
          (parse_nutrition_value row.energy_kcal_100g = 0 ∧
           parse_nutrition_value row.proteins_100g = 0 ∧
           parse_nutrition_value row.carbohydrates_100g = 0))) ∧
    process_product zeroCoreRow = none ∧
    (process_product carbOnlyRow).isSome = true := by
  refine ⟨?_, by decide, by decide⟩
  intro row
  rw [process_product_eq_none_iff]
  constructor
  · rintro ((h | h | h) | h)
    · have h' : pyStrip row.code = "" := h
      exact Or.inl (by rw [h']; decide)
    · exact Or.inr (Or.inl h)
    · exact Or.inl h
    · exact Or.inr (Or.inr h)
  · rintro (h | h | h)
    · exact Or.inl (Or.inr (Or.inr h))
    · exact Or.inl (Or.inr (Or.inl h))
    · exact Or.inr h

/-- Claim C3 (amended): each of the 8 nutrition fields of an emitted item
equals the value parsed from the corresponding raw field (0 substituted
when unparsable; sodium further divided by 1000), and the fields are
non-negative whenever the parsed raw values are non-negative; a parsable
negative raw value, however, is carried through as a negative field. -/
theorem nutrition_fields_follow_raw :
    ∀ (row : RawRecord) (item : CatalogItem), process_product row = some item →
      (item.nutrition.calories = parse_nutrition_value row.energy_kcal_100g ∧
       item.nutrition.protein = parse_nutrition_value row.proteins_100g ∧
       item.nutrition.carbohydrates = parse_nutrition_value row.carbohydrates_100g ∧
       item.nutrition.fat = parse_nutrition_value row.fat_100g ∧
       item.nutrition.saturatedFat = parse_nutrition_value row.saturated_fat_100g ∧
       item.nutrition.fiber = parse_nutrition_value row.fiber_100g ∧
       item.nutrition.sugar = parse_nutrition_value row.sugars_100g ∧
       item.nutrition.sodium = parse_nutrition_value row.sodium_100g / 1000) ∧
      ((0 ≤ parse_nutrition_value row.energy_kcal_100g ∧
        0 ≤ parse_nutrition_value row.proteins_100g ∧
        0 ≤ parse_nutrition_value row.carbohydrates_100g ∧
        0 ≤ parse_nutrition_value row.fat_100g ∧
        0 ≤ parse_nutrition_value row.saturated_fat_100g ∧
        0 ≤ parse_nutrition_value row.fiber_100g ∧
        0 ≤ parse_nutrition_value row.sugars_100g ∧
        0 ≤ parse_nutrition_value row.sodium_100g) →
       (0 ≤ item.nutrition.calories ∧ 0 ≤ item.nutrition.protein ∧
        0 ≤ item.nutrition.carbohydrates ∧ 0 ≤ item.nutrition.fat ∧
        0 ≤ item.nutrition.saturatedFat ∧ 0 ≤ item.nutrition.fiber ∧
        0 ≤ item.nutrition.sugar ∧ 0 ≤ item.nutrition.sodium)) := by
  intro row item h
  have hi := process_product_eq_some h
  subst hi
  refine ⟨⟨rfl, rfl, rfl, rfl, rfl, rfl, rfl, rfl⟩, ?_⟩
  rintro ⟨h1, h2, h3, h4, h5, h6, h7, h8⟩
  refine ⟨h1, h2, h3, h4, h5, h6, h7, ?_⟩
  show (0 : Rat) ≤ parse_nutrition_value row.sodium_100g / 1000
  exact div_nonneg h8 (by norm_num)

/-- Claim C3 (counterexample): the raw calories value "-5" parses and is
emitted as a negative calories field, refuting the claimed
non-negativity of the nutrition fields. -/
theorem nutrition_nonneg_cex :
    (process_product negCaloriesRow).map (fun i => i.nutrition.calories) = some (-5) ∧
    (-5 : Rat) < 0 := by decide

/-- Claim C3 (witness): on a concrete accepted row the calories field is
the parsed raw value and, the raw values being non-negative, all 8
fields are non-negative. -/
theorem nutrition_fields_follow_raw_witness :
    (rowItem baseRow).nutrition.calories = parse_nutrition_value baseRow.energy_kcal_100g ∧
    0 ≤ (rowItem baseRow).nutrition.calories ∧ 0 ≤ (rowItem baseRow).nutrition.sodium := by
  have h := nutrition_fields_follow_raw baseRow (rowItem baseRow) (by decide)
  have hn := h.2 (by decide)
  exact ⟨h.1.1, hn.1, hn.2.2.2.2.2.2.2⟩

/-- Claim C4 (counterexample): on `"5\tg"` — a tab, not a space — the
parser as claimed (always split on whitespace and parse the first token)
would return 5, but `parse_nutrition_value` does not split (no space
character is present), fails to parse the whole string and returns 0. -/
theorem numeric_first_token_cex :
    parse_nutrition_value "5\tg" = 0 ∧ numericClaimedC4 "5\tg" = 5 := by decide

/-- Claim C4 (amended): the parser splits on whitespace and takes the
first token only when the string contains a space character; otherwise it
parses the entire string (which itself tolerates surrounding
whitespace); any parse failure yields 0.0.  In particular, for every
string of the form `<number> <unit>` — the number containing no
whitespace and separated from the unit by a space — it returns the
parsed leading number. -/
theorem numeric_field_amended :
    (∀ v : String, parse_nutrition_value v = numericAmendedSpec v) ∧
    (∀ (numTok unitTok : String) (q : Rat), pyFloat? numTok = some q →
      (∀ c ∈ numTok.data, isPyWs c = false) →
      parse_nutrition_value (numTok ++ " " ++ unitTok) = q) := by
  constructor
  · intro v
    by_cases hg : v = "" ∨ pyStrip v = ""
    · have hws : ∀ c ∈ v.data, isPyWs c = true := by
        rcases hg with hg | hg
        · subst hg; intro c hc; simp at hc
        · exact pyStrip_eq_empty_iff.mp hg
      unfold parse_nutrition_value numericAmendedSpec
      rw [if_pos hg]
      by_cases hc : v.data.contains ' ' = true
      · rw [if_pos hc, pySplitWsChars_allWs hws]
        rfl
      · rw [if_neg hc, pyFloatq_allWs hws]
        rfl
    · rw [parse_nutrition_value_main hg]
      unfold numericAmendedSpec
      by_cases hc : v.data.contains ' ' = true
      · rw [if_pos hc, if_pos hc]
      · rw [if_neg hc, if_neg hc]
  · intro numTok unitTok q hq hn
    have hnum_ne : numTok.data ≠ [] := by
      intro h0
      have hfl : pyFloat? numTok = none := by
        unfold pyFloat?
        rw [h0]
        rfl
      rw [hfl] at hq
      cases hq
    have hdata : (numTok ++ " " ++ unitTok).data = numTok.data ++ ' ' :: unitTok.data := by
      rw [String.data_append, String.data_append]
      simp
    have hguard : ¬ (numTok ++ " " ++ unitTok = "" ∨ pyStrip (numTok ++ " " ++ unitTok) = "") := by
      rintro (h | h)
      · have h2 := String.data_eq_of_eq h
        rw [hdata] at h2
        simp at h2
      · have hws := pyStrip_eq_empty_iff.mp h
        cases hmem : numTok.data with
        | nil => exact hnum_ne hmem
        | cons c0 cs0 =>
          have hin : c0 ∈ (numTok ++ " " ++ unitTok).data := by
            rw [hdata, hmem]
            simp
          have := hws c0 hin
          have hf := hn c0 (by rw [hmem]; simp)
          rw [hf] at this
          cases this
    rw [parse_nutrition_value_main hguard]
    have hcontains : (numTok ++ " " ++ unitTok).data.contains ' ' = true := by
      apply List.elem_iff.mpr
      rw [hdata]
      exact List.mem_append.mpr (Or.inr (List.mem_cons_self _ _))
    rw [if_pos hcontains]
    have hsplit : pySplitWsChars (numTok ++ " " ++ unitTok).data =
        numTok.data :: splitWsAux unitTok.data [] := by
      unfold pySplitWsChars
      rw [hdata]
      have hr := splitWsAux_append unitTok.data numTok.data [] hn
        (by simpa using hnum_ne)
      simpa using hr
    rw [hsplit]
    show (pyFloat? (String.mk numTok.data)).getD 0 = q
    have heta : String.mk numTok.data = numTok := rfl
    rw [heta, hq]
    rfl

/-- Claim C4 (witness): the space-separated value "10 g" parses to 10 via
the number-with-unit part of the amended claim. -/
theorem numeric_field_amended_witness :
    parse_nutrition_value ("10" ++ " " ++ "g") = 10 :=
  numeric_field_amended.2 "10" "g" 10 (by decide) (by decide)

/-- Claim C5: a row whose lowercased countries field contains neither
"united-states" nor "en:united-states" as a substring contributes
nothing to the output catalog, whatever its other fields: removing it
from anywhere in the input leaves the pipeline's products unchanged.
The first conjunct ties the executable substring test to real substring
containment. -/
theorem country_filter_excludes :
    (∀ sep cs : List Char, containsSeq sep cs = true ↔ sep <:+: cs) ∧
    (∀ (row : RawRecord) (rows1 rows2 : List RawRecord) (limit : Nat),
      ¬ ("united-states".data <:+: (pyLower row.countries_tags).data) →
      ¬ ("en:united-states".data <:+: (pyLower row.countries_tags).data) →
      pipelineProducts (rows1 ++ row :: rows2) limit =
        pipelineProducts (rows1 ++ rows2) limit) := by
  refine ⟨fun sep cs => containsSeq_correct, ?_⟩
  intro row rows1 rows2 limit h1 h2
  have e1 : containsSeq "united-states".data (pyLower row.countries_tags).data = false :=
    Bool.eq_false_iff.mpr fun hb => h1 (containsSeq_correct.mp hb)
  have e2 : containsSeq "en:united-states".data (pyLower row.countries_tags).data = false :=
    Bool.eq_false_iff.mpr fun hb => h2 (containsSeq_correct.mp hb)
  have hok : countriesOk row = false := by
    unfold countriesOk
    rw [e1, e2]
    rfl
  unfold pipelineProducts
  rw [collectPairs_append, collectPairs_skip hok, ← collectPairs_append]

/-- Claim C5 (witness): a fully valid record tagged "en:france" is
excluded from the output. -/
theorem country_filter_excludes_witness :
    pipelineProducts ([] ++ franceRow :: []) 5 = pipelineProducts ([] ++ []) 5 :=
  country_filter_excludes.2 franceRow [] [] 5 (by decide) (by decide)

/-- Claim C6 (counterexample): on `", "` the parser as claimed (split on
the delimiter, drop empty fragments) would return `[]`, but
`parse_ingredients` falls back to the one-element list of the whole
stripped text and returns `[","]`. -/
theorem ingredient_split_cex :
    parse_ingredients ", " = [","] ∧ ingredientsClaimedC6 ", " = [] := by decide

/-- Claim C6 (amended): the parser behaves as claimed — split on the
first of comma-space, semicolon-space, hyphen-with-spaces that occurs;
trim, lowercase, drop empty fragments; truncate to 20 — except that
empty or whitespace-only text yields the empty list, and whenever the
cleaned split is empty (no delimiter occurred, or every fragment trimmed
to empty) the whole trimmed, lowercased text is used as a one-element
list; "Water, Sugar, Salt" parses to ["water", "sugar", "salt"]. -/
theorem ingredient_split_amended :
    (∀ t : String, parse_ingredients t = ingredientsAmendedSpec t) ∧
    parse_ingredients "Water, Sugar, Salt" = ["water", "sugar", "salt"] := by
  refine ⟨?_, by decide⟩
  intro t
  by_cases h2 : pyStrip t = ""
  · have hg : t = "" ∨ pyStrip t = "" := Or.inr h2
    unfold parse_ingredients ingredientsAmendedSpec
    rw [if_pos hg, if_pos h2]
  · have hg : ¬ (t = "" ∨ pyStrip t = "") := by
      rintro (h | h)
      · subst h
        exact h2 rfl
      · exact h2 h
    unfold parse_ingredients ingredientsAmendedSpec
    rw [if_neg hg, if_neg h2]

/-- Claim C7: an emitted item's category is the first comma-separated
entry of the raw categories field, trimmed and lowercased; when the
categories field is absent (empty), it is the sentinel "other". -/
theorem category_first_comma_entry :
    ∀ (row : RawRecord) (item : CatalogItem), process_product row = some item →
      (row.categories_en ≠ "" →
        item.category =
          pyLower (pyStrip (String.mk
            (row.categories_en.data.takeWhile (fun c => c != ','))))) ∧
      (row.categories_en = "" → item.category = "other") := by
  intro row item h
  have hi := process_product_eq_some h
  subst hi
  constructor
  · intro hne
    show pyLower (rowCategory row) = _
    unfold rowCategory
    rw [if_neg hne, splitOn1_headD]
  · intro he
    show pyLower (rowCategory row) = "other"
    unfold rowCategory
    rw [if_pos he]
    decide

/-- Claim C7 (witness): categories "Snacks, Chips" yields category
"snacks"; an empty categories field yields "other". -/
theorem category_first_comma_entry_witness :
    (rowItem categoriesRow).category = "snacks" ∧ (rowItem baseRow).category = "other" := by
  have h1 := (category_first_comma_entry categoriesRow (rowItem categoriesRow)
    (by decide)).1 (by decide)
  have h2 := (category_first_comma_entry baseRow (rowItem baseRow) (by decide)).2 (by decide)
  refine ⟨?_, h2⟩
  rw [h1]
  decide

/-- Claim C8: every emitted item's sodium value is the parsed raw sodium
field divided by 1000 (the script's mg→g conversion); in particular, a
raw sodium value of "200" yields nutrition.sodium = 1/5 = 0.2. -/
theorem sodium_milligrams_to_grams :
    (∀ (row : RawRecord) (item : CatalogItem), process_product row = some item →
      item.nutrition.sodium = parse_nutrition_value row.sodium_100g / 1000) ∧
    sodiumRow.sodium_100g = "200" ∧
    process_product sodiumRow = some (rowItem sodiumRow) ∧
    (rowItem sodiumRow).nutrition.sodium = 1 / 5 := by
  refine ⟨?_, rfl, by decide, by decide⟩
  intro row item h
  have hi := process_product_eq_some h
  subst hi
  rfl

/-- Claim C8 (witness): the sodium equation instantiated on the concrete
"200" row. -/
theorem sodium_milligrams_to_grams_witness :
    (rowItem sodiumRow).nutrition.sodium =
      parse_nutrition_value sodiumRow.sodium_100g / 1000 :=
  sodium_milligrams_to_grams.1 sodiumRow (rowItem sodiumRow) (by decide)

/-- Claim C9: for every ranked, truncated item sequence the written
catalog has version "1.0.0", productCount equal to the sequence's
length and the sequence itself, unchanged, under "products"; reading
those fields back from the serialized JSON document agrees, so the
parsed productCount equals the length of the parsed products array. -/
theorem catalog_writer_meta :
    ∀ (now : String) (items : List CatalogItem) (rows : List RawRecord) (limit : Nat),
      (mkCatalog now items).version = "1.0.0" ∧
      (mkCatalog now items).productCount = items.length ∧
      (mkCatalog now items).products = items ∧
      (mkCatalog now items).toJson.getField "version" = some (Json.str "1.0.0") ∧
      (mkCatalog now items).toJson.getField "productCount" =
        some (Json.num (items.length : Rat)) ∧
      (mkCatalog now items).toJson.getField "products" =
        some (Json.arr (items.map CatalogItem.toJson)) ∧
      (mkCatalog now items).productCount = (mkCatalog now items).products.length ∧
      runCatalog rows limit now = mkCatalog now (pipelineProducts rows limit) := by
  intro now items rows limit
  exact ⟨rfl, rfl, rfl, rfl, rfl, rfl, rfl, rfl⟩

/-- Claim C10: the ingredient parser always returns at most 20 entries,
none of them empty, and returns the empty list exactly on blank input;
consequently an emitted item's ingredients field is absent exactly when
the raw ingredient text is blank and is otherwise a non-empty list. -/
theorem ingredients_list_invariants :
    (∀ t : String, (parse_ingredients t).length ≤ 20 ∧
      (∀ x ∈ parse_ingredients t, x ≠ "") ∧
      (parse_ingredients t = [] ↔ pyStrip t = "")) ∧
    (∀ (row : RawRecord) (item : CatalogItem), process_product row = some item →
      ((item.ingredients = none ↔ pyStrip row.ingredients_text = "") ∧
       ∀ l, item.ingredients = some l → l ≠ [])) := by
  constructor
  · intro t
    exact ⟨parse_ingredients_length_le t, fun x hx => parse_ingredients_mem_ne_empty hx,
      parse_ingredients_eq_nil_iff t⟩
  · intro row item h
    have hi := process_product_eq_some h
    subst hi
    have hshow : (rowItem row).ingredients =
        (if parse_ingredients row.ingredients_text = [] then none
         else some (parse_ingredients row.ingredients_text)) := rfl
    by_cases hx : parse_ingredients row.ingredients_text = []
    · rw [hshow, if_pos hx]
      refine ⟨⟨fun _ => (parse_ingredients_eq_nil_iff _).mp hx, fun _ => rfl⟩, ?_⟩
      intro l hl
      cases hl
    · rw [hshow, if_neg hx]
      constructor
      · constructor
        · intro hn
          cases hn
        · intro hs
          exact absurd ((parse_ingredients_eq_nil_iff _).mpr hs) hx
      · intro l hl
        injection hl with hl
        rw [← hl]
        exact hx

/-- Claim C10 (witness): on a concrete accepted row with blank ingredient
text the ingredients field is absent. -/
theorem ingredients_list_invariants_witness :
    (rowItem baseRow).ingredients = none := by
  have h := (ingredients_list_invariants.2 baseRow (rowItem baseRow) (by decide)).1
  exact h.mpr (by decide)
